import Mathlib

/-!
Verification of the s4 exercise endpoints (`src/bdi_api/s4/exercise.py`).

The module has two request handlers plus two pure helpers:

* `_generate_readsb_filenames_every_5s` — pure token generator;
* `download_data` — probes each token with an HTTP HEAD, and for each
  successful probe streams a GET into S3 under `raw/day=20231101/`, stopping
  when `file_limit` uploads have been made;
* `_ensure_empty_dir` / `prepare_data` — reset the local day directory, list
  the bucket under the prefix, download every non-marker key, then call the
  s1 `prepare_data` routine.

The embedding is a shallow one.  External effects (HTTP HEAD/GET, S3
uploads/downloads, directory resets) are recorded as an explicit `Event`
trace; the HEAD outcome is an oracle `probe : String → Bool` on the request
URL, the bucket contents are a list of keys in listing order, and the local
day directory is `Option (List String)` (`none` = the directory does not
exist, `some fs` = it exists and holds the files `fs`, named relative to the
directory).  GET requests after a successful probe are assumed to succeed,
as are the S3 calls: failures there propagate as exceptions in the source
and are outside every claim considered here.  Python string operations on
the ASCII keys are embedded as operations on `String.data`.
-/

/-- Process-wide configuration (`bdi_api.settings.Settings`): only the four
fields the s4 module reads.  A missing `BDI_S3_BUCKET` is the empty string,
matching the falsiness test `if not s3_bucket` in the source. -/
structure Settings where
  source_url : String
  s3_bucket : String
  raw_dir : String
  prepared_dir : String

/-- `DAY = "20231101"` from the source. -/
def DAY : String := "20231101"

/-- `REMOTE_DATE_PATH = "2023/11/01"` from the source. -/
def REMOTE_DATE_PATH : String := "2023/11/01"

/-- The fixed storage key namespace, `S3_PREFIX = f"raw/day={DAY}/"` in the
source. -/
def s3Root : String := "raw/day=" ++ DAY ++ "/"

/-- Two-digit zero-padded decimal rendering: embeds the Python format
`f"{n:02d}"` for `n < 100` (every call site has `n < 60` or `n < 24`),
written out as its two digit characters. -/
def pad2 (n : Nat) : String := String.mk [Char.ofNat (48 + n / 10), Char.ofNat (48 + n % 10)]

/-- One loop body of the generator: the token for second-of-day `sec`,
`f"{hh:02d}{mm:02d}{ss:02d}Z.json.gz"`. -/
def fmtToken (sec : Nat) : String :=
  pad2 (sec / 3600) ++ pad2 (sec % 3600 / 60) ++ pad2 (sec % 60) ++ "Z.json.gz"

/-- `_generate_readsb_filenames_every_5s`: `HHMMSSZ.json.gz` every 5 seconds
for a full day, ascending (`for sec in range(0, 24*60*60, 5)`). -/
def _generate_readsb_filenames_every_5s : List String :=
  (List.range (24 * 60 * 60 / 5)).map (fun i => fmtToken (5 * i))

/-- Observable side effects of the two handlers, in chronological order:
HTTP HEAD / GET, S3 upload, directory removal/creation, the per-file
`dest.parent.mkdir(parents=True, exist_ok=True)` call, S3 listing, S3
download to a local path, and the call into the s1 preparation routine. -/
inductive Event where
  | head (url : String)
  | get (url : String)
  | upload (bucket key : String)
  | rmtree (path : String)
  | mkdir (path : String)
  | mkdirParent (dest : String)
  | listObjects (bucket root : String)
  | download (bucket key dest : String)
  | s1Prepare
  deriving DecidableEq, Repr

/-- The `for filename in _generate_readsb_filenames_every_5s()` loop of
`download_data`: `uploaded` is the running count, and the loop breaks as soon
as `uploaded >= file_limit`.  A failed probe produces only its HEAD event; a
successful probe produces HEAD, GET and the S3 upload, and increments the
count.  Returns the final count and the event trace. -/
def downloadLoop (probe : String → Bool) (base bucket : String) (fileLimit : Int) :
    List String → Int → Int × List Event
  | [], uploaded => (uploaded, [])
  | f :: fs, uploaded =>
    if fileLimit ≤ uploaded then (uploaded, [])
    else
      let url := base ++ f
      if probe url then
        let rest := downloadLoop probe base bucket fileLimit fs (uploaded + 1)
        (rest.1, Event.head url :: Event.get url :: Event.upload bucket (s3Root ++ f) :: rest.2)
      else
        let rest := downloadLoop probe base bucket fileLimit fs uploaded
        (rest.1, Event.head url :: rest.2)

/-- `base_url = f"{settings.source_url}/{REMOTE_DATE_PATH}/"`. -/
def baseUrl (st : Settings) : String := st.source_url ++ "/" ++ REMOTE_DATE_PATH ++ "/"

/-- `download_data(file_limit)`: returns the handler outcome (`Except.error`
embeds the raised `ValueError`) together with the event trace of the call. -/
def download_data (st : Settings) (probe : String → Bool) (file_limit : Int) :
    Except String String × List Event :=
  if file_limit ≤ 0 then (Except.ok "OK uploaded=0", [])
  else if st.s3_bucket = "" then
    (Except.error "Missing S3 bucket. Set env var BDI_S3_BUCKET.", [])
  else
    let r := downloadLoop probe (baseUrl st) st.s3_bucket file_limit
      _generate_readsb_filenames_every_5s 0
    (Except.ok ("OK uploaded=" ++ toString r.1), r.2)

/-- URLs of the HEAD events of a trace, in order. -/
def headsOf : List Event → List String
  | [] => []
  | Event.head u :: es => u :: headsOf es
  | _ :: es => headsOf es

/-- Keys of the S3 upload events of a trace, in order. -/
def uploadKeysOf : List Event → List String
  | [] => []
  | Event.upload _ k :: es => k :: uploadKeysOf es
  | _ :: es => uploadKeysOf es

/-- `local_raw_dir = Path(settings.raw_dir) / f"day={DAY}"`. -/
def localDayDir (st : Settings) : String := st.raw_dir ++ "/day=" ++ DAY

/-- `_ensure_empty_dir(path)`: remove the tree if it exists, then recreate
it; returns the new directory state and the filesystem events. -/
def _ensure_empty_dir (dir : String) (fs : Option (List String)) :
    Option (List String) × List Event :=
  match fs with
  | some _ => (some [], [Event.rmtree dir, Event.mkdir dir])
  | none => (some [], [Event.mkdir dir])

/-- Embedding of Python `key.endswith("/")` on the listed keys. -/
def isDirMarker (k : String) : Bool := k.data.getLast? == some '/'

/-- Embedding of Python `key[len(S3_PREFIX):]` (character slicing). -/
def stripRoot (k : String) : String := String.mk (k.data.drop s3Root.length)

/-- The keys the paginated `list_objects_v2(Bucket=…, Prefix=S3_PREFIX)`
listing yields: exactly the bucket keys under the prefix, in listing
order. -/
def listKeys (bucketContents : List String) : List String :=
  bucketContents.filter (fun k => s3Root.data.isPrefixOf k.data)

/-- The `for obj in page.get("Contents", [])` loop of `prepare_data`: skip
directory markers, otherwise strip the prefix, make the parent directory and
download the object to `dest`.  Returns the local files created (relative to
the day directory, in order) and the event trace. -/
def prepareLoop (bucket dir : String) : List String → List String × List Event
  | [] => ([], [])
  | k :: ks =>
    if isDirMarker k then prepareLoop bucket dir ks
    else
      let filename := stripRoot k
      let rest := prepareLoop bucket dir ks
      (filename :: rest.1,
        Event.mkdirParent (dir ++ "/" ++ filename) ::
          Event.download bucket k (dir ++ "/" ++ filename) :: rest.2)

/-- `prepare_data()`: returns the handler outcome (`s1_result` stands for the
string returned by the s1 routine, which is out of scope), the final state of
the local day directory, and the event trace. -/
def prepare_data (st : Settings) (bucketContents : List String)
    (fs : Option (List String)) (s1_result : String) :
    Except String String × Option (List String) × List Event :=
  if st.s3_bucket = "" then
    (Except.error "Missing S3 bucket. Set env var BDI_S3_BUCKET.", fs, [])
  else
    let dir := localDayDir st
    let reset := _ensure_empty_dir dir fs
    let dl := prepareLoop st.s3_bucket dir (listKeys bucketContents)
    (Except.ok s1_result, some dl.1,
      reset.2 ++ Event.listObjects st.s3_bucket s3Root :: dl.2 ++ [Event.s1Prepare])

/-! ### Trace helpers -/

theorem headsOf_append (l₁ l₂ : List Event) :
    headsOf (l₁ ++ l₂) = headsOf l₁ ++ headsOf l₂ := by
  induction l₁ with
  | nil => simp [headsOf]
  | cons e t ih => cases e <;> simp [headsOf, ih]

theorem uploadKeysOf_append (l₁ l₂ : List Event) :
    uploadKeysOf (l₁ ++ l₂) = uploadKeysOf l₁ ++ uploadKeysOf l₂ := by
  induction l₁ with
  | nil => simp [uploadKeysOf]
  | cons e t ih => cases e <;> simp [uploadKeysOf, ih]

theorem mem_headsOf_of_head_mem {u : String} {evs : List Event}
    (h : Event.head u ∈ evs) : u ∈ headsOf evs := by
  induction evs with
  | nil => cases h
  | cons e t ih =>
    rcases List.mem_cons.mp h with he | hm
    · rw [← he]; simp [headsOf]
    · cases e <;> simp [headsOf] <;> first | exact ih hm | exact Or.inr (ih hm)

/-! ### The download loop -/

/-- Once the count has reached the limit the loop does nothing more. -/
theorem downloadLoop_stopped (probe : String → Bool) (base bucket : String)
    (fileLimit : Int) (files : List String) (u : Int) (h : fileLimit ≤ u) :
    downloadLoop probe base bucket fileLimit files u = (u, []) := by
  cases files with
  | nil => rfl
  | cons f fs => simp [downloadLoop, h]

/-- Number of tokens the loop consumes (= probes) before stopping, starting
from a running count `u`. -/
def stopLen (probeF : String → Bool) (fileLimit : Int) : List String → Int → Nat
  | [], _ => 0
  | f :: fs, u =>
    if fileLimit ≤ u then 0
    else 1 + stopLen probeF fileLimit fs (if probeF f then u + 1 else u)

/-- The probed URLs are exactly the first `stopLen` tokens, in order. -/
theorem headsOf_downloadLoop (probe : String → Bool) (base bucket : String)
    (fileLimit : Int) :
    ∀ (files : List String) (u : Int),
      headsOf (downloadLoop probe base bucket fileLimit files u).2 =
        (files.take (stopLen (fun f => probe (base ++ f)) fileLimit files u)).map
          (fun f => base ++ f) := by
  intro files
  induction files with
  | nil => intro u; simp [downloadLoop, stopLen, headsOf]
  | cons f fs ih =>
    intro u
    by_cases hu : fileLimit ≤ u
    · simp [downloadLoop, stopLen, hu, headsOf]
    · by_cases hp : probe (base ++ f)
      · simp only [downloadLoop, stopLen, if_neg hu, hp, if_true, headsOf, ih,
          Nat.add_comm 1, List.take_succ_cons, List.map_cons]
      · simp only [downloadLoop, stopLen, if_neg hu, hp, if_false, Bool.false_eq_true,
          headsOf, ih, Nat.add_comm 1, List.take_succ_cons, List.map_cons]

/-- If by position `j` the successful probes already reach the limit, the
loop has stopped at or before `j`. -/
theorem stopLen_le (probeF : String → Bool) (fileLimit : Int) :
    ∀ (files : List String) (u : Int) (j : Nat),
      fileLimit ≤ u + ((files.take j).countP probeF : Int) →
      stopLen probeF fileLimit files u ≤ j := by
  intro files
  induction files with
  | nil => intro u j _; simp [stopLen]
  | cons f fs ih =>
    intro u j hj
    by_cases hu : fileLimit ≤ u
    · simp [stopLen, hu]
    · cases j with
      | zero => simp at hj; omega
      | succ j =>
        rw [stopLen, if_neg hu]
        have hcount : ((f :: fs).take (j + 1)).countP probeF =
            (if probeF f then 1 else 0) + (fs.take j).countP probeF := by
          simp [List.take_succ_cons, List.countP_cons, Nat.add_comm]
        by_cases hp : probeF f
        · have := ih (u + 1) j (by rw [hcount] at hj; simp [hp] at hj; omega)
          simp [hp]; omega
        · have := ih u j (by rw [hcount] at hj; simp [hp] at hj; omega)
          simp [hp]; omega

/-- The three events of one successful iteration. -/
def tripleEvents (base bucket f : String) : List Event :=
  [Event.head (base ++ f), Event.get (base ++ f), Event.upload bucket (s3Root ++ f)]

theorem uploadKeysOf_flattenTriples (base bucket : String) :
    ∀ l : List String,
      uploadKeysOf ((l.map (tripleEvents base bucket)).flatten) =
        l.map (fun f => s3Root ++ f) := by
  intro l
  induction l with
  | nil => simp [uploadKeysOf]
  | cons f fs ih => simp [tripleEvents, uploadKeysOf, ih]

theorem headsOf_flattenTriples (base bucket : String) :
    ∀ l : List String,
      headsOf ((l.map (tripleEvents base bucket)).flatten) = l.map (fun f => base ++ f) := by
  intro l
  induction l with
  | nil => simp [headsOf]
  | cons f fs ih => simp [tripleEvents, headsOf, ih]

theorem headsOf_mapHead (base : String) (l : List String) :
    headsOf (l.map (fun f => Event.head (base ++ f))) = l.map (fun f => base ++ f) := by
  induction l with
  | nil => simp [headsOf]
  | cons f fs ih => simp [headsOf, ih]

theorem uploadKeysOf_mapHead (base : String) (l : List String) :
    uploadKeysOf (l.map (fun f => Event.head (base ++ f))) = [] := by
  induction l with
  | nil => simp [uploadKeysOf]
  | cons f fs ih => simp [uploadKeysOf, ih]

/-- Closed form of the loop when every remaining probe succeeds: the final
count is `min fileLimit (u + |files|)` and the trace is one event triple per
uploaded token. -/
theorem downloadLoop_all_true (probe : String → Bool) (base bucket : String)
    (fileLimit : Int) :
    ∀ (files : List String) (u : Int), u ≤ fileLimit →
      (∀ f ∈ files, probe (base ++ f) = true) →
      downloadLoop probe base bucket fileLimit files u =
        (min fileLimit (u + files.length),
          ((files.take (fileLimit - u).toNat).map (tripleEvents base bucket)).flatten) := by
  intro files
  induction files with
  | nil =>
    intro u hu _
    simp [downloadLoop]
    omega
  | cons f fs ih =>
    intro u hu hp
    by_cases hstop : fileLimit ≤ u
    · have hu' : u = fileLimit := le_antisymm hu hstop
      rw [downloadLoop_stopped _ _ _ _ _ _ hstop]
      have : (fileLimit - u).toNat = 0 := by omega
      simp [this, hu']
      omega
    · have hpf : probe (base ++ f) = true := hp f (List.mem_cons_self f fs)
      have hrec := ih (u + 1) (by omega) (fun g hg => hp g (List.mem_cons_of_mem f hg))
      have htake : (f :: fs).take (fileLimit - u).toNat =
          f :: fs.take (fileLimit - (u + 1)).toNat := by
        have h1 : (fileLimit - u).toNat = (fileLimit - (u + 1)).toNat + 1 := by omega
        rw [h1, List.take_succ_cons]
      rw [downloadLoop]
      simp only [if_neg hstop, hpf, if_true, hrec, htake, List.map_cons,
        List.flatten_cons, Prod.mk.injEq]
      constructor
      · simp; omega
      · simp [tripleEvents]

/-- Skipped tokens at the front of the list: every probe in `A` fails, so the
loop contributes one HEAD event per element of `A` and then behaves on the
rest as if `A` were absent. -/
theorem downloadLoop_all_false_prefix (probe : String → Bool) (base bucket : String)
    (fileLimit : Int) :
    ∀ (A B : List String) (u : Int), u < fileLimit →
      (∀ f ∈ A, probe (base ++ f) = false) →
      downloadLoop probe base bucket fileLimit (A ++ B) u =
        ((downloadLoop probe base bucket fileLimit B u).1,
          A.map (fun f => Event.head (base ++ f)) ++
            (downloadLoop probe base bucket fileLimit B u).2) := by
  intro A
  induction A with
  | nil => intro B u _ _; simp
  | cons f A ih =>
    intro B u hu hp
    have hpf : probe (base ++ f) = false := hp f (List.mem_cons_self f A)
    rw [List.cons_append, downloadLoop]
    simp only [if_neg (by omega : ¬ fileLimit ≤ u), hpf, Bool.false_eq_true, if_false]
    rw [ih B u hu (fun g hg => hp g (List.mem_cons_of_mem f hg))]
    simp

/-! ### The token generator -/

/-- Numeric value of an ASCII digit character. -/
def digitVal (c : Char) : Nat := c.toNat - 48

/-- Read the time-of-day (in seconds) back out of a `HHMMSSZ.json.gz`
token. -/
def decodeTime (s : String) : Nat :=
  (digitVal (s.data.getD 0 '0') * 10 + digitVal (s.data.getD 1 '0')) * 3600 +
    (digitVal (s.data.getD 2 '0') * 10 + digitVal (s.data.getD 3 '0')) * 60 +
    (digitVal (s.data.getD 4 '0') * 10 + digitVal (s.data.getD 5 '0'))

theorem digitVal_ofNat (d : Nat) (h : d < 10) : digitVal (Char.ofNat (48 + d)) = d := by
  interval_cases d <;> rfl

theorem decodeTime_fmtToken (sec : Nat) (h : sec < 86400) :
    decodeTime (fmtToken sec) = sec := by
  have e : decodeTime (fmtToken sec) =
      (digitVal (Char.ofNat (48 + sec / 3600 / 10)) * 10 +
          digitVal (Char.ofNat (48 + sec / 3600 % 10))) * 3600 +
        (digitVal (Char.ofNat (48 + sec % 3600 / 60 / 10)) * 10 +
          digitVal (Char.ofNat (48 + sec % 3600 / 60 % 10))) * 60 +
        (digitVal (Char.ofNat (48 + sec % 60 / 10)) * 10 +
          digitVal (Char.ofNat (48 + sec % 60 % 10))) := rfl
  rw [e, digitVal_ofNat _ (by omega), digitVal_ofNat _ (by omega),
    digitVal_ofNat _ (by omega), digitVal_ofNat _ (by omega),
    digitVal_ofNat _ (by omega), digitVal_ofNat _ (by omega)]
  omega

theorem fmtToken_inj {a b : Nat} (ha : a < 86400) (hb : b < 86400)
    (h : fmtToken a = fmtToken b) : a = b := by
  have e1 := decodeTime_fmtToken a ha
  have e2 := decodeTime_fmtToken b hb
  rw [h, e2] at e1
  omega

theorem tokens_length : _generate_readsb_filenames_every_5s.length = 17280 := by
  simp [_generate_readsb_filenames_every_5s]

theorem tokens_getD (i : Nat) (h : i < 17280) :
    _generate_readsb_filenames_every_5s.getD i "" = fmtToken (5 * i) := by
  rw [_generate_readsb_filenames_every_5s]
  rw [List.getD_eq_getElem?_getD, List.getElem?_map, List.getElem?_range (by omega : i < 24 * 60 * 60 / 5)]
  rfl

theorem tokens_nodup : _generate_readsb_filenames_every_5s.Nodup := by
  rw [_generate_readsb_filenames_every_5s]
  refine List.Nodup.map_on ?_ (List.nodup_range _)
  intro i hi j hj hf
  rw [List.mem_range] at hi hj
  have := fmtToken_inj (a := 5 * i) (b := 5 * j) (by omega) (by omega) hf
  omega

/-- Appending a fixed string on the left is injective. -/
theorem stringAppend_left_cancel : ∀ {a b c : String}, a ++ b = a ++ c → b = c := by
  intro ⟨la⟩ ⟨lb⟩ ⟨lc⟩ h
  have h2 : la ++ lb = la ++ lc := congrArg String.data h
  exact congrArg String.mk (List.append_cancel_left h2)

/-! ### Concrete instances used by witnesses and counterexamples -/

/-- A configuration with a bucket set. -/
def stBucket : Settings :=
  ⟨"https://samples.adsbexchange.com/readsb-hist", "bdi-aircraft", "/tmp/raw", "/tmp/prepared"⟩

/-- A configuration with no bucket configured. -/
def stNoBucket : Settings :=
  ⟨"https://samples.adsbexchange.com/readsb-hist", "", "/tmp/raw", "/tmp/prepared"⟩

/-- Probe oracle under which every existence probe succeeds. -/
def probeAll : String → Bool := fun _ => true

/-- Probe oracle under which every existence probe fails. -/
def probeNone : String → Bool := fun _ => false

/-! ### Claims -/

/-- C3: for every `file_limit <= 0` the Downloader performs zero network
calls (the event trace is empty: no probe, no fetch, no storage write) and
returns `"OK uploaded=0"`. -/
theorem download_nonpositive_limit_no_io (st : Settings) (probe : String → Bool)
    (file_limit : Int) (h : file_limit ≤ 0) :
    download_data st probe file_limit = (Except.ok "OK uploaded=0", []) := by
  simp [download_data, h]

theorem download_nonpositive_limit_no_io_witness :
    (0 : Int) ≤ 0 ∧ download_data stBucket probeNone 0 = (Except.ok "OK uploaded=0", []) :=
  ⟨le_refl 0, download_nonpositive_limit_no_io stBucket probeNone 0 (le_refl 0)⟩

/-- C10: with no bucket configured the Downloader still returns
`"OK uploaded=0"` with no I/O whenever `file_limit <= 0`; the missing-bucket
configuration error is raised exactly when `file_limit > 0`. -/
theorem download_bucket_check_only_positive_limit (st : Settings)
    (probe : String → Bool) (file_limit : Int) (hb : st.s3_bucket = "") :
    (file_limit ≤ 0 →
      download_data st probe file_limit = (Except.ok "OK uploaded=0", [])) ∧
    (0 < file_limit →
      download_data st probe file_limit =
        (Except.error "Missing S3 bucket. Set env var BDI_S3_BUCKET.", [])) := by
  constructor
  · intro h; simp [download_data, h]
  · intro h; rw [download_data, if_neg (by omega), if_pos hb]

theorem download_bucket_check_only_positive_limit_witness :
    stNoBucket.s3_bucket = "" ∧
      (((0 : Int) ≤ 0 →
        download_data stNoBucket probeNone 0 = (Except.ok "OK uploaded=0", [])) ∧
      (0 < (0 : Int) →
        download_data stNoBucket probeNone 0 =
          (Except.error "Missing S3 bucket. Set env var BDI_S3_BUCKET.", []))) :=
  ⟨rfl, download_bucket_check_only_positive_limit stNoBucket probeNone 0 rfl⟩

/-- C4 counterexample: with no bucket configured and `file_limit = 0` the
Downloader does not raise the configuration error — it returns
`"OK uploaded=0"` — so the claim that both endpoints always raise when the
bucket is absent is false as stated. -/
theorem download_no_bucket_zero_limit_returns_ok :
    download_data stNoBucket probeNone 0 = (Except.ok "OK uploaded=0", []) ∧
    (download_data stNoBucket probeNone 0).1 ≠
      Except.error "Missing S3 bucket. Set env var BDI_S3_BUCKET." := by
  constructor
  · rfl
  · intro h; cases h

/-- C4 (amended): with no bucket configured, the Localizer always — and the
Downloader whenever `file_limit > 0` — raises the configuration error
immediately, with an empty event trace (no network, storage, or filesystem
I/O) and the local directory untouched. -/
theorem no_bucket_fails_fast (st : Settings) (probe : String → Bool) (file_limit : Int)
    (bucketContents : List String) (fs : Option (List String)) (s1_result : String)
    (hb : st.s3_bucket = "") :
    (0 < file_limit →
      download_data st probe file_limit =
        (Except.error "Missing S3 bucket. Set env var BDI_S3_BUCKET.", [])) ∧
    prepare_data st bucketContents fs s1_result =
      (Except.error "Missing S3 bucket. Set env var BDI_S3_BUCKET.", fs, []) := by
  constructor
  · intro h; rw [download_data, if_neg (by omega), if_pos hb]
  · rw [prepare_data, if_pos hb]

theorem no_bucket_fails_fast_witness :
    stNoBucket.s3_bucket = "" ∧
      ((0 < (1 : Int) →
        download_data stNoBucket probeAll 1 =
          (Except.error "Missing S3 bucket. Set env var BDI_S3_BUCKET.", [])) ∧
      prepare_data stNoBucket [] (some ["old.json.gz"]) "OK" =
        (Except.error "Missing S3 bucket. Set env var BDI_S3_BUCKET.",
          some ["old.json.gz"], [])) :=
  ⟨rfl, no_bucket_fails_fast stNoBucket probeAll 1 [] (some ["old.json.gz"]) "OK" rfl⟩

/-- C6: the filename generator returns exactly 17,280 tokens, one per
5-second boundary of a 24-hour day (the decoded times are exactly
0, 5, …, 86395), each of the form `HHMMSSZ.json.gz`, and the sequence is
strictly ascending by time-of-day. -/
theorem generator_tokens_spec :
    _generate_readsb_filenames_every_5s.length = 17280 ∧
    (∀ s ∈ _generate_readsb_filenames_every_5s,
      ∃ hh mm ss, hh < 24 ∧ mm < 60 ∧ ss < 60 ∧
        s = pad2 hh ++ pad2 mm ++ pad2 ss ++ "Z.json.gz") ∧
    _generate_readsb_filenames_every_5s.map decodeTime =
      (List.range 17280).map (fun i => 5 * i) ∧
    (∀ i j, i < j → j < 17280 →
      decodeTime (_generate_readsb_filenames_every_5s.getD i "") <
        decodeTime (_generate_readsb_filenames_every_5s.getD j "")) := by
  refine ⟨tokens_length, ?_, ?_, ?_⟩
  · intro s hs
    rw [_generate_readsb_filenames_every_5s] at hs
    obtain ⟨i, hi, rfl⟩ := List.mem_map.mp hs
    rw [List.mem_range] at hi
    exact ⟨5 * i / 3600, 5 * i % 3600 / 60, 5 * i % 60,
      by omega, by omega, by omega, rfl⟩
  · rw [_generate_readsb_filenames_every_5s]
    rw [show 24 * 60 * 60 / 5 = 17280 from rfl, List.map_map]
    refine List.map_congr_left ?_
    intro i hi
    rw [List.mem_range] at hi
    exact decodeTime_fmtToken (5 * i) (by omega)
  · intro i j hij hj
    rw [tokens_getD i (by omega), tokens_getD j hj,
      decodeTime_fmtToken (5 * i) (by omega), decodeTime_fmtToken (5 * j) (by omega)]
    omega

theorem generator_tokens_spec_witness :
    decodeTime (_generate_readsb_filenames_every_5s.getD 0 "") <
      decodeTime (_generate_readsb_filenames_every_5s.getD 1 "") :=
  generator_tokens_spec.2.2.2 0 1 (by omega) (by omega)

/-- C1 (amended): for every `file_limit = n` with `0 < n ≤ 17280`, if every
existence probe reports success, the Downloader uploads exactly `n` distinct
objects, all under the fixed storage prefix `raw/day=20231101/`, and returns
the status string `"OK uploaded=n"`.  (For `n` above the 17,280 available
tokens the count saturates; see the counterexample.) -/
theorem download_all_probes_ok (st : Settings) (probe : String → Bool) (n : Int)
    (hb : st.s3_bucket ≠ "") (hp : ∀ u, probe u = true)
    (h1 : 0 < n) (h2 : n ≤ 17280) :
    (download_data st probe n).1 = Except.ok ("OK uploaded=" ++ toString n) ∧
    uploadKeysOf (download_data st probe n).2 =
      (_generate_readsb_filenames_every_5s.take n.toNat).map (fun f => s3Root ++ f) ∧
    (uploadKeysOf (download_data st probe n).2).length = n.toNat ∧
    (uploadKeysOf (download_data st probe n).2).Nodup ∧
    (∀ key ∈ uploadKeysOf (download_data st probe n).2, ∃ f, key = s3Root ++ f) := by
  have hloop := downloadLoop_all_true probe (baseUrl st) st.s3_bucket n
    _generate_readsb_filenames_every_5s 0 (by omega) (fun f _ => hp _)
  have hmin : min n ((0 : Int) + (_generate_readsb_filenames_every_5s.length : Int)) = n := by
    rw [tokens_length]; omega
  have hsub : ((n : Int) - 0).toNat = n.toNat := by omega
  have hd : download_data st probe n =
      (Except.ok ("OK uploaded=" ++ toString n),
        ((_generate_readsb_filenames_every_5s.take n.toNat).map
          (tripleEvents (baseUrl st) st.s3_bucket)).flatten) := by
    rw [download_data, if_neg (by omega), if_neg hb]
    simp only [hloop, hmin, hsub]
  rw [hd]
  refine ⟨rfl, uploadKeysOf_flattenTriples _ _ _, ?_, ?_, ?_⟩
  · rw [uploadKeysOf_flattenTriples, List.length_map, List.length_take, tokens_length]
    omega
  · rw [uploadKeysOf_flattenTriples]
    exact List.Nodup.map (fun a b hab => stringAppend_left_cancel hab)
      (List.Sublist.nodup (List.take_sublist _ _) tokens_nodup)
  · intro key hk
    rw [uploadKeysOf_flattenTriples] at hk
    obtain ⟨f, _, hf⟩ := List.mem_map.mp hk
    exact ⟨f, hf.symm⟩

theorem download_all_probes_ok_witness :
    stBucket.s3_bucket ≠ "" ∧ (∀ u, probeAll u = true) ∧
      (0 : Int) < 2 ∧ (2 : Int) ≤ 17280 ∧
      ((download_data stBucket probeAll 2).1 =
          Except.ok ("OK uploaded=" ++ toString (2 : Int)) ∧
        uploadKeysOf (download_data stBucket probeAll 2).2 =
          (_generate_readsb_filenames_every_5s.take (2 : Int).toNat).map
            (fun f => s3Root ++ f) ∧
        (uploadKeysOf (download_data stBucket probeAll 2).2).length = (2 : Int).toNat ∧
        (uploadKeysOf (download_data stBucket probeAll 2).2).Nodup ∧
        (∀ key ∈ uploadKeysOf (download_data stBucket probeAll 2).2,
          ∃ f, key = s3Root ++ f)) :=
  ⟨by decide, fun u => rfl, by decide, by decide,
    download_all_probes_ok stBucket probeAll 2 (by decide) (fun u => rfl)
      (by decide) (by decide)⟩

/-- C1 counterexample: at `file_limit = 17281` every probe succeeds but only
17,280 tokens exist, so the Downloader reports `"OK uploaded=17280"`, not
`"OK uploaded=17281"` — the claim fails for limits above the token count. -/
theorem download_limit_above_token_count :
    (download_data stBucket probeAll 17281).1 = Except.ok "OK uploaded=17280" ∧
    (download_data stBucket probeAll 17281).1 ≠ Except.ok "OK uploaded=17281" := by
  have hloop := downloadLoop_all_true probeAll (baseUrl stBucket) stBucket.s3_bucket 17281
    _generate_readsb_filenames_every_5s 0 (by omega) (fun f _ => rfl)
  have hmin : min (17281 : Int)
      ((0 : Int) + (_generate_readsb_filenames_every_5s.length : Int)) = 17280 := by
    rw [tokens_length]; omega
  have h1 : (download_data stBucket probeAll 17281).1 =
      Except.ok ("OK uploaded=" ++ toString (17280 : Int)) := by
    rw [download_data, if_neg (by omega), if_neg (by decide)]
    simp only [hloop, hmin]
  have h2 : ("OK uploaded=" ++ toString (17280 : Int)) = "OK uploaded=17280" := by decide
  rw [h1, h2]
  exact ⟨rfl, by simp⟩

/-- Members of a take are members of the list at the same position. -/
theorem getD_mem_take : ∀ (l : List String) (i k : Nat), i < k → i < l.length →
    l.getD i "" ∈ l.take k := by
  intro l
  induction l with
  | nil => intro i k _ h; simp at h
  | cons a t ih =>
    intro i k hik hil
    cases i with
    | zero =>
      cases k with
      | zero => omega
      | succ k => simp [List.getD_cons_zero, List.take_succ_cons]
    | succ i =>
      cases k with
      | zero => omega
      | succ k =>
        simp only [List.take_succ_cons, List.getD_cons_succ]
        exact List.mem_cons_of_mem _ (ih i k (by omega) (by simpa using hil))

/-- C2 (amended): for every `k` and every limit `n` with `0 < n` and
`k + n ≤ 17280`, when the probes of the first `k` tokens fail and all later
probes succeed, the Downloader reports `n` uploads and uploads exactly the
first `n` tokens whose probe succeeded (tokens `k, …, k+n-1`, not the first
`n` chronological tokens); each token whose probe fails is probed exactly
once — never retried — and is never uploaded.  (Without `k + n ≤ 17280`
there are fewer than `n` successful tokens; see the counterexample.) -/
theorem download_skips_failed_probes (st : Settings) (probe : String → Bool)
    (k : Nat) (n : Int) (hb : st.s3_bucket ≠ "")
    (hfail : ∀ f ∈ _generate_readsb_filenames_every_5s.take k,
      probe (baseUrl st ++ f) = false)
    (hsucc : ∀ f ∈ _generate_readsb_filenames_every_5s.drop k,
      probe (baseUrl st ++ f) = true)
    (hn : 0 < n) (hkn : (k : Int) + n ≤ 17280) :
    (download_data st probe n).1 = Except.ok ("OK uploaded=" ++ toString n) ∧
    uploadKeysOf (download_data st probe n).2 =
      ((_generate_readsb_filenames_every_5s.drop k).take n.toNat).map
        (fun f => s3Root ++ f) ∧
    (∀ i, i < k →
      (headsOf (download_data st probe n).2).count
        (baseUrl st ++ _generate_readsb_filenames_every_5s.getD i "") = 1) ∧
    (∀ i, i < k →
      s3Root ++ _generate_readsb_filenames_every_5s.getD i "" ∉
        uploadKeysOf (download_data st probe n).2) := by
  have hk : k < 17280 := by omega
  have hBlen : (_generate_readsb_filenames_every_5s.drop k).length = 17280 - k := by
    rw [List.length_drop, tokens_length]
  have hB := downloadLoop_all_true probe (baseUrl st) st.s3_bucket n
    (_generate_readsb_filenames_every_5s.drop k) 0 (by omega) hsucc
  have hmin : min n ((0 : Int) + ((_generate_readsb_filenames_every_5s.drop k).length : Int)) =
      n := by rw [hBlen]; omega
  have hsub : ((n : Int) - 0).toNat = n.toNat := by omega
  rw [hmin, hsub] at hB
  have hAB := downloadLoop_all_false_prefix probe (baseUrl st) st.s3_bucket n
    (_generate_readsb_filenames_every_5s.take k) (_generate_readsb_filenames_every_5s.drop k)
    0 (by omega) hfail
  rw [hB] at hAB
  rw [List.take_append_drop] at hAB
  have hd : download_data st probe n =
      (Except.ok ("OK uploaded=" ++ toString n),
        (_generate_readsb_filenames_every_5s.take k).map
            (fun f => Event.head (baseUrl st ++ f)) ++
          (((_generate_readsb_filenames_every_5s.drop k).take n.toNat).map
            (tripleEvents (baseUrl st) st.s3_bucket)).flatten) := by
    rw [download_data, if_neg (by omega), if_neg hb]
    simp only [hAB]
  have hinj : Function.Injective (fun f => baseUrl st ++ f) :=
    fun a b hab => stringAppend_left_cancel hab
  have hnodupAB : ((_generate_readsb_filenames_every_5s.take k) ++
      ((_generate_readsb_filenames_every_5s.drop k).take n.toNat)).Nodup := by
    refine List.Sublist.nodup ?_ tokens_nodup
    have h1 := List.Sublist.append_left
      (List.take_sublist n.toNat (_generate_readsb_filenames_every_5s.drop k))
      (_generate_readsb_filenames_every_5s.take k)
    rw [List.take_append_drop] at h1
    exact h1
  rw [hd]
  refine ⟨rfl, ?_, ?_, ?_⟩
  · rw [uploadKeysOf_append, uploadKeysOf_mapHead, uploadKeysOf_flattenTriples,
      List.nil_append]
  · intro i hi
    rw [headsOf_append, headsOf_mapHead, headsOf_flattenTriples, ← List.map_append]
    rw [List.count_map_of_injective _ _ hinj]
    refine List.count_eq_one_of_mem hnodupAB ?_
    exact List.mem_append_left _
      (getD_mem_take _ i k hi (by rw [tokens_length]; omega))
  · intro i hi hmem
    rw [uploadKeysOf_append, uploadKeysOf_mapHead, uploadKeysOf_flattenTriples,
      List.nil_append] at hmem
    obtain ⟨g, hg, hgeq⟩ := List.mem_map.mp hmem
    have hgf : g = _generate_readsb_filenames_every_5s.getD i "" :=
      stringAppend_left_cancel hgeq
    have hfA : _generate_readsb_filenames_every_5s.getD i "" ∈
        _generate_readsb_filenames_every_5s.take k :=
      getD_mem_take _ i k hi (by rw [tokens_length]; omega)
    have hfB : _generate_readsb_filenames_every_5s.getD i "" ∈
        _generate_readsb_filenames_every_5s.drop k :=
      List.take_subset _ _ (hgf ▸ hg)
    have hdisj : List.Disjoint (_generate_readsb_filenames_every_5s.take k)
        (_generate_readsb_filenames_every_5s.drop k) := by
      refine List.disjoint_of_nodup_append ?_
      rw [List.take_append_drop]
      exact tokens_nodup
    exact hdisj hfA hfB

theorem download_skips_failed_probes_witness :
    stBucket.s3_bucket ≠ "" ∧
      (∀ f ∈ _generate_readsb_filenames_every_5s.take 0,
        probeAll (baseUrl stBucket ++ f) = false) ∧
      (∀ f ∈ _generate_readsb_filenames_every_5s.drop 0,
        probeAll (baseUrl stBucket ++ f) = true) ∧
      (0 : Int) < 1 ∧ ((0 : Nat) : Int) + 1 ≤ 17280 ∧
      ((download_data stBucket probeAll 1).1 =
          Except.ok ("OK uploaded=" ++ toString (1 : Int)) ∧
        uploadKeysOf (download_data stBucket probeAll 1).2 =
          ((_generate_readsb_filenames_every_5s.drop 0).take (1 : Int).toNat).map
            (fun f => s3Root ++ f) ∧
        (∀ i, i < 0 →
          (headsOf (download_data stBucket probeAll 1).2).count
            (baseUrl stBucket ++ _generate_readsb_filenames_every_5s.getD i "") = 1) ∧
        (∀ i, i < 0 →
          s3Root ++ _generate_readsb_filenames_every_5s.getD i "" ∉
            uploadKeysOf (download_data stBucket probeAll 1).2)) :=
  ⟨by decide, by simp, fun f _ => rfl, by decide, by decide,
    download_skips_failed_probes stBucket probeAll 0 1 (by decide) (by simp)
      (fun f _ => rfl) (by decide) (by decide)⟩

/-- C2 counterexample: with `k = 0` (no failing probes, all probes succeed)
and limit `n = 17281`, only 17,280 uploads happen, so the Downloader does not
upload "the first `n` tokens whose probe succeeded" — there are fewer than
`n` successful tokens. -/
theorem download_skips_failed_probes_counterexample :
    (uploadKeysOf (download_data stBucket probeAll 17281).2).length = 17280 ∧
    (17280 : Nat) ≠ 17281 := by
  have hloop := downloadLoop_all_true probeAll (baseUrl stBucket) stBucket.s3_bucket 17281
    _generate_readsb_filenames_every_5s 0 (by omega) (fun f _ => rfl)
  have hd : (download_data stBucket probeAll 17281).2 =
      ((_generate_readsb_filenames_every_5s.take ((17281 : Int) - 0).toNat).map
        (tripleEvents (baseUrl stBucket) stBucket.s3_bucket)).flatten := by
    rw [download_data, if_neg (by omega), if_neg (by decide)]
    simp only [hloop]
  rw [hd, uploadKeysOf_flattenTriples, List.length_map, List.length_take, tokens_length]
  exact ⟨rfl, by decide⟩

theorem getD_mem : ∀ (l : List String) (j : Nat), j < l.length → l.getD j "" ∈ l := by
  intro l
  induction l with
  | nil => intro j h; simp at h
  | cons a t ih =>
    intro j h
    cases j with
    | zero => simp
    | succ j => exact List.mem_cons_of_mem _ (ih j (by simpa using h))

/-- In a duplicate-free list, the element at position `j` does not occur
among the first `S ≤ j` elements. -/
theorem getD_not_mem_take_of_nodup : ∀ (l : List String) (j S : Nat), l.Nodup →
    S ≤ j → j < l.length → l.getD j "" ∉ l.take S := by
  intro l
  induction l with
  | nil => intro j S _ _ h; simp at h
  | cons a t ih =>
    intro j S hnd hSj hj
    cases S with
    | zero => simp
    | succ S =>
      cases j with
      | zero => omega
      | succ j =>
        simp only [List.take_succ_cons, List.getD_cons_succ, List.mem_cons]
        rintro (h | h)
        · have hmem := getD_mem t j (by simpa using hj)
          rw [h] at hmem
          exact (List.nodup_cons.mp hnd).1 hmem
        · exact ih j S (List.nodup_cons.mp hnd).2 (by omega) (by simpa using hj) h

/-- C5: the Downloader stops as soon as the count of successful uploads
reaches the limit: if by position `j` (exclusive) the successful probes
already number at least `file_limit` — i.e. token `j` lies strictly after
the token that produced the limit-th upload — then token `j` is never
probed. -/
theorem download_never_probes_past_limit (st : Settings) (probe : String → Bool)
    (file_limit : Int) (j : Nat) (hb : st.s3_bucket ≠ "") (hL : 0 < file_limit)
    (hj : j < 17280)
    (hreached : file_limit ≤
      (((_generate_readsb_filenames_every_5s.take j).countP
        (fun f => probe (baseUrl st ++ f)) : Nat) : Int)) :
    Event.head (baseUrl st ++ _generate_readsb_filenames_every_5s.getD j "") ∉
      (download_data st probe file_limit).2 := by
  intro hmem
  have hd : (download_data st probe file_limit).2 =
      (downloadLoop probe (baseUrl st) st.s3_bucket file_limit
        _generate_readsb_filenames_every_5s 0).2 := by
    rw [download_data, if_neg (by omega), if_neg hb]
  rw [hd] at hmem
  have hmem2 := mem_headsOf_of_head_mem hmem
  rw [headsOf_downloadLoop] at hmem2
  have hSle : stopLen (fun f => probe (baseUrl st ++ f)) file_limit
      _generate_readsb_filenames_every_5s 0 ≤ j :=
    stopLen_le _ file_limit _ 0 j (by omega)
  obtain ⟨g, hg, hgeq⟩ := List.mem_map.mp hmem2
  have hgf : g = _generate_readsb_filenames_every_5s.getD j "" :=
    stringAppend_left_cancel hgeq
  rw [hgf] at hg
  exact getD_not_mem_take_of_nodup _ j _ tokens_nodup hSle
    (by rw [tokens_length]; omega) hg

theorem tokens_take_one : _generate_readsb_filenames_every_5s.take 1 = [fmtToken 0] := by
  rw [_generate_readsb_filenames_every_5s, ← List.map_take,
    show (24 * 60 * 60 / 5 : Nat) = 17280 from rfl, List.take_range]
  norm_num [List.range_succ]

theorem download_never_probes_past_limit_witness :
    stBucket.s3_bucket ≠ "" ∧ (0 : Int) < 1 ∧ (1 : Nat) < 17280 ∧
      (1 : Int) ≤ (((_generate_readsb_filenames_every_5s.take 1).countP
        (fun f => probeAll (baseUrl stBucket ++ f)) : Nat) : Int) ∧
      Event.head (baseUrl stBucket ++ _generate_readsb_filenames_every_5s.getD 1 "") ∉
        (download_data stBucket probeAll 1).2 := by
  have hcount : (1 : Int) ≤ (((_generate_readsb_filenames_every_5s.take 1).countP
      (fun f => probeAll (baseUrl stBucket ++ f)) : Nat) : Int) := by
    rw [tokens_take_one]
    simp [probeAll]
  exact ⟨by decide, by decide, by decide, hcount,
    download_never_probes_past_limit stBucket probeAll 1 1 (by decide) (by decide)
      (by decide) hcount⟩

/-! ### The Localizer -/

/-- Closed form of the files the Localizer materialises: the prefix-filtered
listing, with directory markers skipped and the prefix stripped. -/
def localFiles (bucketContents : List String) : List String :=
  (listKeys bucketContents).filterMap
    (fun k => if isDirMarker k then none else some (stripRoot k))

theorem prepareLoop_fst (b d : String) : ∀ ks : List String,
    (prepareLoop b d ks).1 =
      ks.filterMap (fun k => if isDirMarker k then none else some (stripRoot k)) := by
  intro ks
  induction ks with
  | nil => simp [prepareLoop]
  | cons k ks ih => by_cases h : isDirMarker k <;> simp [prepareLoop, h, ih]

/-- C7: every Localizer invocation destroys and recreates the local day
directory before downloading (the trace starts with `rmtree` then `mkdir`,
before the listing and every download), so after a successful run the
directory holds exactly the files derived from the listing of the storage
prefix — independently of the directory's previous contents, so no file from
a previous run survives. -/
theorem localizer_resets_directory (st : Settings) (bc prev : List String)
    (res : String) (hb : st.s3_bucket ≠ "") :
    (prepare_data st bc (some prev) res).2.1 = some (localFiles bc) ∧
    (∀ fs fs' : Option (List String),
      (prepare_data st bc fs res).2.1 = (prepare_data st bc fs' res).2.1) ∧
    (prepare_data st bc (some prev) res).2.2 =
      Event.rmtree (localDayDir st) :: Event.mkdir (localDayDir st) ::
        Event.listObjects st.s3_bucket s3Root ::
        ((prepareLoop st.s3_bucket (localDayDir st) (listKeys bc)).2 ++
          [Event.s1Prepare]) ∧
    (∀ f ∈ prev, f ∉ localFiles bc →
      f ∉ ((prepare_data st bc (some prev) res).2.1.getD [])) := by
  have h1 : ∀ fs, (prepare_data st bc fs res).2.1 = some (localFiles bc) := by
    intro fs
    rw [prepare_data, if_neg hb]
    show some (prepareLoop st.s3_bucket (localDayDir st) (listKeys bc)).1 = _
    rw [prepareLoop_fst]
    rfl
  refine ⟨h1 _, fun fs fs' => by rw [h1, h1], ?_, ?_⟩
  · rw [prepare_data, if_neg hb]
    rfl
  · intro f _ hnot hmem
    rw [h1] at hmem
    exact hnot (by simpa using hmem)

theorem localizer_resets_directory_witness :
    stBucket.s3_bucket ≠ "" ∧
      ((prepare_data stBucket ["raw/day=20231101/000000Z.json.gz"]
          (some ["stale.json.gz"]) "OK").2.1 =
        some (localFiles ["raw/day=20231101/000000Z.json.gz"]) ∧
      (∀ fs fs' : Option (List String),
        (prepare_data stBucket ["raw/day=20231101/000000Z.json.gz"] fs "OK").2.1 =
          (prepare_data stBucket ["raw/day=20231101/000000Z.json.gz"] fs' "OK").2.1) ∧
      (prepare_data stBucket ["raw/day=20231101/000000Z.json.gz"]
          (some ["stale.json.gz"]) "OK").2.2 =
        Event.rmtree (localDayDir stBucket) :: Event.mkdir (localDayDir stBucket) ::
          Event.listObjects stBucket.s3_bucket s3Root ::
          ((prepareLoop stBucket.s3_bucket (localDayDir stBucket)
            (listKeys ["raw/day=20231101/000000Z.json.gz"])).2 ++
            [Event.s1Prepare]) ∧
      (∀ f ∈ ["stale.json.gz"], f ∉ localFiles ["raw/day=20231101/000000Z.json.gz"] →
        f ∉ ((prepare_data stBucket ["raw/day=20231101/000000Z.json.gz"]
          (some ["stale.json.gz"]) "OK").2.1.getD []))) :=
  ⟨by decide, localizer_resets_directory stBucket ["raw/day=20231101/000000Z.json.gz"]
    ["stale.json.gz"] "OK" (by decide)⟩

/-- C8: when the storage prefix lists no objects the Localizer is not an
error: it downloads nothing, leaves the freshly reset local day directory
empty, still reaches the preparation routine, and returns that routine's
result unchanged. -/
theorem localizer_empty_listing_ok (st : Settings) (bc : List String)
    (fs : Option (List String)) (res : String) (hb : st.s3_bucket ≠ "")
    (hempty : listKeys bc = []) :
    (prepare_data st bc fs res).1 = Except.ok res ∧
    (prepare_data st bc fs res).2.1 = some [] ∧
    (∀ b k d, Event.download b k d ∉ (prepare_data st bc fs res).2.2) ∧
    Event.s1Prepare ∈ (prepare_data st bc fs res).2.2 := by
  rw [prepare_data, if_neg hb]
  simp only [hempty]
  refine ⟨by trivial, by trivial, ?_, ?_⟩
  · intro b k d
    cases fs <;> simp [_ensure_empty_dir, prepareLoop]
  · cases fs <;> simp [_ensure_empty_dir, prepareLoop]

theorem localizer_empty_listing_ok_witness :
    stBucket.s3_bucket ≠ "" ∧ listKeys ["unrelated/key.txt"] = [] ∧
      ((prepare_data stBucket ["unrelated/key.txt"] none "OK").1 = Except.ok "OK" ∧
      (prepare_data stBucket ["unrelated/key.txt"] none "OK").2.1 = some [] ∧
      (∀ b k d, Event.download b k d ∉
        (prepare_data stBucket ["unrelated/key.txt"] none "OK").2.2) ∧
      Event.s1Prepare ∈ (prepare_data stBucket ["unrelated/key.txt"] none "OK").2.2) :=
  ⟨by decide, by decide,
    localizer_empty_listing_ok stBucket ["unrelated/key.txt"] none "OK"
      (by decide) (by decide)⟩

/-- C9: with the storage prefix holding exactly the two objects
`raw/day=20231101/000000Z.json.gz` and `raw/day=20231101/000005Z.json.gz`,
the Localizer produces exactly the two local files `000000Z.json.gz` and
`000005Z.json.gz` under the local day directory (the prefix is stripped from
each key; directory-marker keys would be skipped). -/
theorem localizer_two_objects (st : Settings) (fs : Option (List String))
    (res : String) (hb : st.s3_bucket ≠ "") :
    (prepare_data st
        ["raw/day=20231101/000000Z.json.gz", "raw/day=20231101/000005Z.json.gz"]
        fs res).2.1 =
      some ["000000Z.json.gz", "000005Z.json.gz"] := by
  rw [prepare_data, if_neg hb]
  show some ((prepareLoop st.s3_bucket (localDayDir st) (listKeys
    ["raw/day=20231101/000000Z.json.gz", "raw/day=20231101/000005Z.json.gz"])).1) = _
  rw [prepareLoop_fst]
  decide

theorem localizer_two_objects_witness :
    stBucket.s3_bucket ≠ "" ∧
      (prepare_data stBucket
          ["raw/day=20231101/000000Z.json.gz", "raw/day=20231101/000005Z.json.gz"]
          (some []) "OK").2.1 =
        some ["000000Z.json.gz", "000005Z.json.gz"] :=
  ⟨by decide, localizer_two_objects stBucket (some []) "OK" (by decide)⟩
